import Mathlib

/-!
Shallow embedding of the analytics core of `defect-inflow-predictor`
(`src/cli.py`): measure derivation, health classification, dual-method
forecasting and resource planning.  Numeric columns are modelled over `ℚ`
(the Python code computes with floats; we idealise to exact arithmetic).
Python operations that can raise (`iloc[-1]` on an empty series,
`preds[-1]` on an empty prediction list, `np.polyfit` on an empty vector)
are modelled with `Option`, `none` standing for the raised exception.
-/

/-- One row of the input table (`base_measures.csv`), field names as in the
CSV header read by `cli.py`.  `week_start` is irrelevant to every claim and
is omitted. -/
structure WeeklyMeasureRecord where
  defects_inflow_total : ℚ
  defects_outflow_total : ℚ
  severity_critical_in : ℚ
  severity_high_in : ℚ
  severity_medium_in : ℚ
  severity_low_in : ℚ
  avg_resolution_time_hours : ℚ
  backlog_total : ℚ
deriving DecidableEq, Repr, Inhabited

/-- A map from the four severities to a number: used for the configured
`severity_weights`, the configured `resources.hours_per_defect`, and the
forecast severity breakdown `sev_pred`. -/
structure SeverityMap where
  critical : ℚ
  high : ℚ
  medium : ℚ
  low : ℚ
deriving DecidableEq, Repr, Inhabited

/-- Columns added by `derive_measures` (cli.py lines 11-25) on top of the
input columns. -/
structure DerivedMeasureRecord extends WeeklyMeasureRecord where
  net_flow : ℚ
  inflow_rate : ℚ
  outflow_rate : ℚ
  severity_weighted_inflow : ℚ
  severe_inflow : ℚ
  mttr_hours : ℚ
deriving DecidableEq, Repr, Inhabited

/-- Per-row body of `derive_measures` (cli.py lines 13-24): each derived
column as assigned in the source. -/
def deriveRow (w : SeverityMap) (r : WeeklyMeasureRecord) : DerivedMeasureRecord :=
  { r with
    net_flow := r.defects_inflow_total - r.defects_outflow_total
    inflow_rate := r.defects_inflow_total
    outflow_rate := r.defects_outflow_total
    severity_weighted_inflow :=
      w.critical * r.severity_critical_in +
      w.high * r.severity_high_in +
      w.medium * r.severity_medium_in +
      w.low * r.severity_low_in
    severe_inflow := r.severity_critical_in + r.severity_high_in
    mttr_hours := r.avg_resolution_time_hours }

/-- The function `derive_measures` (cli.py lines 11-25): pandas column
assignments act row-wise, so the data-frame computation is the row map. -/
def derive_measures (w : SeverityMap) (rows : List WeeklyMeasureRecord) :
    List DerivedMeasureRecord :=
  rows.map (deriveRow w)

/-- Round-half-to-even to an integer, the rounding mode of Python's builtin
`round`. -/
def rhe (q : ℚ) : ℤ :=
  if q - ⌊q⌋ < 1/2 then ⌊q⌋
  else if 1/2 < q - ⌊q⌋ then ⌊q⌋ + 1
  else if Even ⌊q⌋ then ⌊q⌋ else ⌊q⌋ + 1

/-- Python's `round(x, 1)` (one decimal place, half to even), idealised over
`ℚ`. -/
def pyRound1 (q : ℚ) : ℚ := (rhe (10 * q) : ℚ) / 10

/-- The body of the `ewma` loop (cli.py lines 28-31): starting from
`forecast`, apply `forecast <- alpha * last + (1 - alpha) * forecast` a
given number of times; `last = series.iloc[-1]` is held fixed. -/
def ewmaIter (last forecast alpha : ℚ) : ℕ → ℚ
  | 0 => forecast
  | h + 1 => alpha * last + (1 - alpha) * ewmaIter last forecast alpha h

/-- The function `ewma` (cli.py lines 27-31).  `series.iloc[-1]` raises
`IndexError` on an empty series, modelled as `none`; otherwise the loop
starts from `forecast = series.iloc[-1]`. -/
def ewma (series : List ℚ) (alpha : ℚ) (horizon : ℕ) : Option ℚ :=
  match series.getLast? with
  | none => none
  | some last => some (ewmaIter last last alpha horizon)

/-- Ordinary-least-squares fit of `y = a*x + b` over `x = 0..n-1`, the
normal-equation closed form of `np.polyfit(x, y, 1)` (cli.py lines 34-35). -/
def linregFit (y : List ℚ) : ℚ × ℚ :=
  let n : ℚ := y.length
  let sx : ℚ := ∑ i in Finset.range y.length, (i : ℚ)
  let sy : ℚ := y.sum
  let sxy : ℚ := ∑ i in Finset.range y.length, (i : ℚ) * y.getD i 0
  let sxx : ℚ := ∑ i in Finset.range y.length, (i : ℚ) ^ 2
  let a := (n * sxy - sx * sy) / (n * sxx - sx ^ 2)
  (a, (sy - a * sx) / n)

/-- The function `linreg_forecast` (cli.py lines 33-39): fit the line, build
`preds` for `h = 1..horizon` and return `preds[-1]`.  `np.polyfit` raises on
an empty vector and `preds[-1]` raises `IndexError` when `horizon = 0`;
both are modelled as `none`. -/
def linreg_forecast (y : List ℚ) (horizon : ℕ) : Option ℚ :=
  if y.isEmpty ∨ horizon = 0 then none
  else
    let ab := linregFit y
    some (ab.1 * ((y.length : ℚ) - 1 + horizon) + ab.2)

/-- The `forecast` section of the configuration (cli.py lines 43 and 50). -/
structure ForecastConfig where
  method : String
  ewma_alpha : ℚ
deriving DecidableEq, Repr

/-- Method selection of `forecast_next` (cli.py lines 43-47): start from the
configured method and override `ewma` to `linreg` when `horizon > 3`. -/
def select_method (method : String) (horizon : ℕ) : String :=
  if horizon > 3 ∧ method = "ewma" then "linreg" else method

/-- Mean of a list, `pandas` mean over a non-empty tail window (cli.py line
58); the guard mirrors division only happening on non-empty input. -/
def meanQ (l : List ℚ) : ℚ := if l.length = 0 then 0 else l.sum / l.length

/-- `df.tail(n)`: the last `n` rows. -/
def tailN {α : Type} (n : ℕ) (l : List α) : List α := l.drop (l.length - n)

/-- The function `forecast_next` (cli.py lines 41-67): pick the method,
forecast inflow and outflow, compute the 10-week severity mix and return
the clamped forecasts with the severity breakdown. -/
def forecast_next (df : List WeeklyMeasureRecord) (cfg : ForecastConfig)
    (horizon : ℕ) : Option (ℚ × ℚ × SeverityMap) :=
  let method := select_method cfg.method horizon
  let inflows := df.map (fun r => r.defects_inflow_total)
  let outflows := df.map (fun r => r.defects_outflow_total)
  let preds : Option (ℚ × ℚ) :=
    if method = "ewma" then
      match ewma inflows cfg.ewma_alpha horizon, ewma outflows cfg.ewma_alpha horizon with
      | some i, some o => some (i, o)
      | _, _ => none
    else
      match linreg_forecast inflows horizon, linreg_forecast outflows horizon with
      | some i, some o => some (i, o)
      | _, _ => none
  match preds with
  | none => none
  | some (inflow_pred, outflow_pred) =>
    let recent := tailN 10 df
    let total0 := meanQ (recent.map (fun r => r.defects_inflow_total))
    let total := if total0 = 0 then 1 else total0
    let mix (f : WeeklyMeasureRecord → ℚ) : ℚ := meanQ (recent.map f) / total
    let sev_pred : SeverityMap :=
      { critical := max 0 (pyRound1 (mix (fun r => r.severity_critical_in) * inflow_pred))
        high := max 0 (pyRound1 (mix (fun r => r.severity_high_in) * inflow_pred))
        medium := max 0 (pyRound1 (mix (fun r => r.severity_medium_in) * inflow_pred))
        low := max 0 (pyRound1 (mix (fun r => r.severity_low_in) * inflow_pred)) }
    some (max 0 inflow_pred, max 0 outflow_pred, sev_pred)

/-- The `health_thresholds` section of the configuration (cli.py lines
78-92). -/
structure HealthThresholds where
  inflow_gt_outflow_consecutive_weeks : ℕ
  backlog_healthy_max : ℚ
  critical_severe_window : ℕ
  critical_severe_min : ℚ
  healthy_max_per_deployment : ℚ
deriving DecidableEq, Repr

/-- Problem flags of week `i` as collected by the loop body of `indicators`
(cli.py lines 76-86): the prefix `df.iloc[:i+1]` is sliced, each rule is
checked in order and appends its flag name. -/
def weekFlags (th : HealthThresholds) (d : List DerivedMeasureRecord) (i : ℕ) :
    List String :=
  let wdf := d.take (i + 1)
  let N := th.inflow_gt_outflow_consecutive_weeks
  let f1 : List String :=
    if i + 1 ≥ N ∧ (tailN N wdf).all
        (fun r => decide (r.defects_inflow_total > r.defects_outflow_total)) then
      ["inflow>outflow"]
    else []
  let f2 : List String :=
    if (d.getD i default).backlog_total > th.backlog_healthy_max then
      ["backlog_high"]
    else []
  let K := th.critical_severe_window
  let f3 : List String :=
    if ((tailN K wdf).map (fun r => r.severe_inflow)).sum ≥ th.critical_severe_min then
      ["severe_spike"]
    else []
  f1 ++ f2 ++ f3

/-- Health status of week `i` (cli.py lines 87-95): `red` on a severe spike
or on inflow-exceeds-outflow together with a high backlog, else `yellow`
when any flag is raised, else `green` or `yellow` by the per-deployment
threshold. -/
def weekStatus (th : HealthThresholds) (d : List DerivedMeasureRecord) (i : ℕ) :
    String :=
  let flags := weekFlags th d i
  if "severe_spike" ∈ flags ∨ ("inflow>outflow" ∈ flags ∧ "backlog_high" ∈ flags) then
    "red"
  else if flags ≠ [] then "yellow"
  else if (d.getD i default).defects_inflow_total ≤ th.healthy_max_per_deployment then
    "green"
  else "yellow"

/-- The function `indicators` (cli.py lines 70-99), restricted to the two
columns it adds: per week the `problem_flags` list and `health_status`. -/
def indicators (th : HealthThresholds) (d : List DerivedMeasureRecord) :
    List (List String × String) :=
  (List.range d.length).map (fun i => (weekFlags th d i, weekStatus th d i))

/-- Result record of `resource_plan` (cli.py lines 109-115). -/
structure ResourcePlan where
  predicted_inflow : ℚ
  estimated_total_hours : ℚ
  recommended_engineers : ℤ
  recommended_qa_hours : ℚ
  hours_per_defect : SeverityMap
deriving DecidableEq, Repr

/-- The accumulation loop of `resource_plan` (cli.py lines 103-105):
`total_hours = Σ hp[k] * sev_pred[k]` over the four severities. -/
def totalHours (hp sev : SeverityMap) : ℚ :=
  hp.critical * sev.critical + hp.high * sev.high +
    hp.medium * sev.medium + hp.low * sev.low

/-- The function `resource_plan` (cli.py lines 101-115): staffing hours from
the severity forecast, engineers by ceiling division when capacity is
positive and `0` otherwise, outputs rounded to one decimal. -/
def resource_plan (next_inflow : ℚ) (sev hp : SeverityMap) (cap qa_share : ℚ) :
    ResourcePlan :=
  let total_hours := totalHours hp sev
  let engineers : ℤ := if cap > 0 then ⌈total_hours / cap⌉ else 0
  { predicted_inflow := pyRound1 next_inflow
    estimated_total_hours := pyRound1 total_hours
    recommended_engineers := engineers
    recommended_qa_hours := pyRound1 (total_hours * qa_share)
    hours_per_defect := hp }

/-- Thresholds of the spec's worked example in §8. -/
def sampleThresholds : HealthThresholds :=
  { inflow_gt_outflow_consecutive_weeks := 3
    backlog_healthy_max := 8
    critical_severe_window := 4
    critical_severe_min := 5
    healthy_max_per_deployment := 5 }

/-- Input rows of the spec's worked example in §8 (severity counts zero,
resolution time arbitrary). -/
def sampleWeeks : List WeeklyMeasureRecord :=
  [ { defects_inflow_total := 5, defects_outflow_total := 4
      severity_critical_in := 0, severity_high_in := 0
      severity_medium_in := 0, severity_low_in := 0
      avg_resolution_time_hours := 36, backlog_total := 1 }
  , { defects_inflow_total := 6, defects_outflow_total := 4
      severity_critical_in := 0, severity_high_in := 0
      severity_medium_in := 0, severity_low_in := 0
      avg_resolution_time_hours := 36, backlog_total := 3 }
  , { defects_inflow_total := 7, defects_outflow_total := 4
      severity_critical_in := 0, severity_high_in := 0
      severity_medium_in := 0, severity_low_in := 0
      avg_resolution_time_hours := 36, backlog_total := 6 }
  , { defects_inflow_total := 8, defects_outflow_total := 4
      severity_critical_in := 0, severity_high_in := 0
      severity_medium_in := 0, severity_low_in := 0
      avg_resolution_time_hours := 36, backlog_total := 10 } ]

/-- The sample rows after derivation with unit weights. -/
def sampleDerived : List DerivedMeasureRecord :=
  derive_measures { critical := 10, high := 5, medium := 2, low := 1 } sampleWeeks

/-! ## Helper lemmas -/

/-- The EWMA loop body is the identity when the running forecast already
equals the fixed `last` value. -/
theorem ewmaIter_self (last alpha : ℚ) (h : ℕ) :
    ewmaIter last last alpha h = last := by
  induction h with
  | zero => rfl
  | succ k ih => rw [ewmaIter, ih]; ring

/-- Closed form of the EWMA loop for an arbitrary starting forecast. -/
theorem ewmaIter_closed (last f alpha : ℚ) (h : ℕ) :
    ewmaIter last f alpha h = last - (last - f) * (1 - alpha) ^ h := by
  induction h with
  | zero => simp [ewmaIter]
  | succ k ih => rw [ewmaIter, ih, pow_succ]; ring

/-- Sum of `0..n-1` as a rational. -/
theorem sum_range_id_q (n : ℕ) :
    ∑ i in Finset.range n, (i : ℚ) = n * (n - 1) / 2 := by
  induction n with
  | zero => simp
  | succ m ih =>
    rw [Finset.sum_range_succ, ih]
    push_cast
    ring

/-- Sum of the squares of `0..n-1` as a rational. -/
theorem sum_range_sq_q (n : ℕ) :
    ∑ i in Finset.range n, (i : ℚ) ^ 2 = n * (n - 1) * (2 * n - 1) / 6 := by
  induction n with
  | zero => simp
  | succ m ih =>
    rw [Finset.sum_range_succ, ih]
    push_cast
    ring

/-- On an exactly linear series `y i = a * i + b` with at least two points,
the least-squares fit recovers the slope `a` and intercept `b`. -/
theorem linregFit_linear (a b : ℚ) (n : ℕ) (hn : 2 ≤ n) :
    linregFit (List.ofFn fun i : Fin n => a * (i : ℚ) + b) = (a, b) := by
  have hnq : (2 : ℚ) ≤ (n : ℚ) := by exact_mod_cast hn
  have hn0 : (n : ℚ) ≠ 0 := by linarith
  have hlen : (List.ofFn fun i : Fin n => a * (i : ℚ) + b).length = n :=
    List.length_ofFn _
  have hD : (n : ℚ) * (∑ i in Finset.range n, (i : ℚ) ^ 2) -
      (∑ i in Finset.range n, (i : ℚ)) ^ 2 ≠ 0 := by
    rw [sum_range_id_q, sum_range_sq_q]
    have h12 : (n : ℚ) * ((n : ℚ) * ((n : ℚ) - 1) * (2 * (n : ℚ) - 1) / 6) -
        ((n : ℚ) * ((n : ℚ) - 1) / 2) ^ 2 =
        (n : ℚ) ^ 2 * ((n : ℚ) - 1) * ((n : ℚ) + 1) / 12 := by ring
    rw [h12]
    have hpos : (0 : ℚ) < (n : ℚ) ^ 2 * ((n : ℚ) - 1) * ((n : ℚ) + 1) / 12 := by
      apply div_pos _ (by norm_num)
      apply mul_pos (mul_pos (pow_pos (by linarith) 2) (by linarith)) (by linarith)
    exact ne_of_gt hpos
  have hsy : (List.ofFn fun i : Fin n => a * (i : ℚ) + b).sum =
      a * (∑ i in Finset.range n, (i : ℚ)) + b * (n : ℚ) := by
    rw [List.sum_ofFn, Fin.sum_univ_eq_sum_range (fun i => a * (i : ℚ) + b),
      Finset.sum_add_distrib, ← Finset.mul_sum, Finset.sum_const,
      Finset.card_range, nsmul_eq_mul]
    ring
  have hsxy : ∑ i in Finset.range n,
      (i : ℚ) * (List.ofFn fun j : Fin n => a * (j : ℚ) + b).getD i 0 =
      a * (∑ i in Finset.range n, (i : ℚ) ^ 2) +
        b * (∑ i in Finset.range n, (i : ℚ)) := by
    have h1 : ∀ i ∈ Finset.range n,
        (i : ℚ) * (List.ofFn fun j : Fin n => a * (j : ℚ) + b).getD i 0 =
          a * (i : ℚ) ^ 2 + b * (i : ℚ) := by
      intro i hi
      rw [Finset.mem_range] at hi
      rw [List.getD_eq_getElem _ _ (by rw [hlen]; exact hi), List.getElem_ofFn]
      simp only [Fin.val_mk]
      ring
    rw [Finset.sum_congr rfl h1, Finset.sum_add_distrib, ← Finset.mul_sum,
      ← Finset.mul_sum]
  simp only [linregFit, hlen, hsy, hsxy]
  set S1 := ∑ i in Finset.range n, (i : ℚ) with hS1
  set S2 := ∑ i in Finset.range n, (i : ℚ) ^ 2 with hS2
  have hslope : ((n : ℚ) * (a * S2 + b * S1) - S1 * (a * S1 + b * (n : ℚ))) /
      ((n : ℚ) * S2 - S1 ^ 2) = a := by
    rw [div_eq_iff hD]
    ring
  rw [Prod.mk.injEq]
  constructor
  · exact hslope
  · rw [hslope, div_eq_iff hn0]
    ring

/-- Bounds for round-half-to-even: it lands on the floor or the floor plus
one. -/
theorem rhe_bounds (q : ℚ) : ⌊q⌋ ≤ rhe q ∧ rhe q ≤ ⌊q⌋ + 1 := by
  unfold rhe
  split_ifs <;> omega

/-- Round-half-to-even is monotone. -/
theorem rhe_mono {a b : ℚ} (hab : a ≤ b) : rhe a ≤ rhe b := by
  rcases lt_or_eq_of_le (Int.floor_le_floor hab) with hf | hf
  · have h1 := (rhe_bounds a).2
    have h2 := (rhe_bounds b).1
    omega
  · unfold rhe
    rw [hf]
    split_ifs <;> first | omega | linarith

/-- Python's one-decimal rounding is monotone. -/
theorem pyRound1_mono {a b : ℚ} (hab : a ≤ b) : pyRound1 a ≤ pyRound1 b := by
  unfold pyRound1
  have h : ((rhe (10 * a) : ℚ)) ≤ ((rhe (10 * b) : ℚ)) := by
    exact_mod_cast rhe_mono (by linarith : 10 * a ≤ 10 * b)
  linarith

/-- The EWMA path of `forecast_next` succeeds on every non-empty series:
there is no check on `alpha` or the horizon; the only failure mode is the
empty series. -/
theorem forecast_next_ewma_some (df : List WeeklyMeasureRecord) (alpha : ℚ)
    (h : ℕ) (hdf : df ≠ []) (hh : h ≤ 3) :
    (forecast_next df { method := "ewma", ewma_alpha := alpha } h).isSome =
      true := by
  have hsel : select_method "ewma" h = "ewma" := by
    unfold select_method
    rw [if_neg]
    rintro ⟨h3, -⟩
    omega
  have h1 : (df.map fun r => r.defects_inflow_total) ≠ [] := by
    intro hc
    exact hdf (by simpa using hc)
  have h2 : (df.map fun r => r.defects_outflow_total) ≠ [] := by
    intro hc
    exact hdf (by simpa using hc)
  obtain ⟨vi, hvi⟩ : ∃ v,
      ewma (df.map fun r => r.defects_inflow_total) alpha h = some v := by
    unfold ewma
    rw [List.getLast?_eq_getLast _ h1]
    exact ⟨_, rfl⟩
  obtain ⟨vo, hvo⟩ : ∃ v,
      ewma (df.map fun r => r.defects_outflow_total) alpha h = some v := by
    unfold ewma
    rw [List.getLast?_eq_getLast _ h2]
    exact ⟨_, rfl⟩
  simp [forecast_next, hsel, hvi, hvo]

/-! ## Claim theorems -/

/-- C10: the `ewma` function returns exactly the last element of the series
for every non-empty series, every `alpha` and every horizon `h`: since the
loop starts at `forecast = last` and keeps `last` fixed, the recurrence is
stationary, so the result is a constant function of `alpha` and of the
horizon. -/
theorem ewma_returns_last (s : List ℚ) (alpha : ℚ) (h : ℕ) (hs : s ≠ []) :
    ewma s alpha h = some (s.getLast hs) := by
  unfold ewma
  rw [List.getLast?_eq_getLast s hs]
  show some (ewmaIter (s.getLast hs) (s.getLast hs) alpha h) = some (s.getLast hs)
  rw [ewmaIter_self]

/-- Witness for C10 at the series `[3, 7]`, `alpha = 2/3`, horizon `5`. -/
theorem ewma_returns_last_witness :
    ewma [(3 : ℚ), 7] (2/3) 5 = some 7 :=
  ewma_returns_last [(3 : ℚ), 7] (2/3) 5 (by decide)

/-- C1: for a non-empty series, `alpha ∈ (0,1)` and horizon `h`, the EWMA
forecast equals `last - (last - forecast₀) * (1 - alpha)^h` where the
initial forecast is `last` itself, and as `h → ∞` the iterate converges to
`last`. -/
theorem ewma_closed_form (s : List ℚ) (alpha : ℚ) (h : ℕ) (hs : s ≠ [])
    (h0 : 0 < alpha) (h1 : alpha < 1) :
    ewma s alpha h =
      some (s.getLast hs - (s.getLast hs - s.getLast hs) * (1 - alpha) ^ h) ∧
    Filter.Tendsto (fun k => ewmaIter (s.getLast hs) (s.getLast hs) alpha k)
      Filter.atTop (nhds (s.getLast hs)) := by
  constructor
  · unfold ewma
    rw [List.getLast?_eq_getLast s hs]
    show some (ewmaIter (s.getLast hs) (s.getLast hs) alpha h) = _
    rw [ewmaIter_closed]
  · simp only [ewmaIter_self]
    exact tendsto_const_nhds

/-- Witness for C1 at the series `[3, 7]`, `alpha = 1/2`, horizon `4`. -/
theorem ewma_closed_form_witness :
    ewma [(3 : ℚ), 7] (1/2) 4 = some (7 - (7 - 7) * (1 - 1/2) ^ 4) ∧
    Filter.Tendsto (fun k => ewmaIter 7 7 (1/2) k) Filter.atTop (nhds 7) :=
  ewma_closed_form [(3 : ℚ), 7] (1/2) 4 (by decide) (by norm_num) (by norm_num)

/-- C4: `derive_measures` produces one derived record per input record in
the same order (it is a row map, so the length is preserved and the derived
row at index `i` carries the input row at index `i` unchanged), and each
derived row satisfies the four arithmetic column definitions. -/
theorem derive_measures_pointwise (w : SeverityMap)
    (rows : List WeeklyMeasureRecord) (i : ℕ) (hi : i < rows.length) :
    (derive_measures w rows).length = rows.length ∧
    ((derive_measures w rows).getD i default).toWeeklyMeasureRecord =
      rows.getD i default ∧
    ((derive_measures w rows).getD i default).net_flow =
      (rows.getD i default).defects_inflow_total -
        (rows.getD i default).defects_outflow_total ∧
    ((derive_measures w rows).getD i default).severe_inflow =
      (rows.getD i default).severity_critical_in +
        (rows.getD i default).severity_high_in ∧
    ((derive_measures w rows).getD i default).severity_weighted_inflow =
      w.critical * (rows.getD i default).severity_critical_in +
        w.high * (rows.getD i default).severity_high_in +
        w.medium * (rows.getD i default).severity_medium_in +
        w.low * (rows.getD i default).severity_low_in ∧
    ((derive_measures w rows).getD i default).mttr_hours =
      (rows.getD i default).avg_resolution_time_hours := by
  have hlen : (derive_measures w rows).length = rows.length :=
    List.length_map rows (deriveRow w)
  have hget : (derive_measures w rows).getD i default =
      deriveRow w (rows.getD i default) := by
    rw [List.getD_eq_getElem _ _ (hlen ▸ hi), List.getD_eq_getElem _ _ hi]
    exact List.getElem_map (deriveRow w)
  refine ⟨hlen, ?_, ?_, ?_, ?_, ?_⟩ <;> rw [hget] <;> rfl

/-- Witness for C4 at the sample input, row `1`. -/
theorem derive_measures_pointwise_witness :
    (derive_measures { critical := 10, high := 5, medium := 2, low := 1 }
        sampleWeeks).length = sampleWeeks.length ∧
    ((derive_measures { critical := 10, high := 5, medium := 2, low := 1 }
        sampleWeeks).getD 1 default).toWeeklyMeasureRecord =
      sampleWeeks.getD 1 default ∧
    ((derive_measures { critical := 10, high := 5, medium := 2, low := 1 }
        sampleWeeks).getD 1 default).net_flow =
      (sampleWeeks.getD 1 default).defects_inflow_total -
        (sampleWeeks.getD 1 default).defects_outflow_total ∧
    ((derive_measures { critical := 10, high := 5, medium := 2, low := 1 }
        sampleWeeks).getD 1 default).severe_inflow =
      (sampleWeeks.getD 1 default).severity_critical_in +
        (sampleWeeks.getD 1 default).severity_high_in ∧
    ((derive_measures { critical := 10, high := 5, medium := 2, low := 1 }
        sampleWeeks).getD 1 default).severity_weighted_inflow =
      (10 : ℚ) * (sampleWeeks.getD 1 default).severity_critical_in +
        5 * (sampleWeeks.getD 1 default).severity_high_in +
        2 * (sampleWeeks.getD 1 default).severity_medium_in +
        1 * (sampleWeeks.getD 1 default).severity_low_in ∧
    ((derive_measures { critical := 10, high := 5, medium := 2, low := 1 }
        sampleWeeks).getD 1 default).mttr_hours =
      (sampleWeeks.getD 1 default).avg_resolution_time_hours :=
  derive_measures_pointwise
    { critical := 10, high := 5, medium := 2, low := 1 } sampleWeeks 1 (by decide)

/-- C2: the linear-regression forecast fits `y = a*x + b` by ordinary least
squares over `x = 0..n-1` and returns the value at `h = horizon`; on a
perfectly linear input series it yields `a*(n-1+h) + b` exactly. -/
theorem linreg_forecast_exact (a b : ℚ) (n : ℕ) (hn : 2 ≤ n) (h : ℕ)
    (hh : 1 ≤ h) :
    linreg_forecast (List.ofFn fun i : Fin n => a * (i : ℚ) + b) h =
      some (a * ((n : ℚ) - 1 + h) + b) := by
  unfold linreg_forecast
  rw [if_neg]
  · rw [linregFit_linear a b n hn]
    simp [List.length_ofFn]
  · rintro (hemp | h0)
    · rw [List.isEmpty_iff] at hemp
      have := congrArg List.length hemp
      simp [List.length_ofFn] at this
      omega
    · omega

/-- Witness for C2 on the exactly linear series `[0, 1]` (slope `1`,
intercept `0`) at horizon `1`. -/
theorem linreg_forecast_exact_witness :
    linreg_forecast (List.ofFn fun i : Fin 2 => (1 : ℚ) * (i : ℚ) + 0) 1 =
      some ((1 : ℚ) * ((2 : ℚ) - 1 + 1) + 0) :=
  linreg_forecast_exact 1 0 2 (by norm_num) 1 (by norm_num)

/-- C6: whenever `forecast_next` succeeds, the returned inflow forecast,
outflow forecast and every entry of the severity breakdown are
non-negative: the forecasts are clamped with `max 0` and each severity
entry is `max 0 (round ...)`. -/
theorem forecast_next_nonneg (df : List WeeklyMeasureRecord)
    (cfg : ForecastConfig) (horizon : ℕ) (ip op : ℚ) (sev : SeverityMap)
    (hres : forecast_next df cfg horizon = some (ip, op, sev)) :
    0 ≤ ip ∧ 0 ≤ op ∧ 0 ≤ sev.critical ∧ 0 ≤ sev.high ∧
      0 ≤ sev.medium ∧ 0 ≤ sev.low := by
  simp only [forecast_next] at hres
  split at hres
  · exact absurd hres (by simp)
  · simp only [Option.some.injEq, Prod.mk.injEq] at hres
    obtain ⟨rfl, rfl, rfl⟩ := hres
    exact ⟨le_max_left 0 _, le_max_left 0 _, le_max_left 0 _, le_max_left 0 _,
      le_max_left 0 _, le_max_left 0 _⟩

/-- Witness for C6 at the sample input with the EWMA method, `alpha = 0`
and horizon `0`. -/
theorem forecast_next_nonneg_witness :
    (0 : ℚ) ≤ 8 ∧ (0 : ℚ) ≤ 4 ∧
    (0 : ℚ) ≤ (SeverityMap.mk 0 0 0 0).critical ∧
    (0 : ℚ) ≤ (SeverityMap.mk 0 0 0 0).high ∧
    (0 : ℚ) ≤ (SeverityMap.mk 0 0 0 0).medium ∧
    (0 : ℚ) ≤ (SeverityMap.mk 0 0 0 0).low :=
  forecast_next_nonneg sampleWeeks { method := "ewma", ewma_alpha := 0 } 0
    8 4 (SeverityMap.mk 0 0 0 0) (by
      norm_num [forecast_next, select_method, ewma, ewmaIter, meanQ, tailN,
        pyRound1, rhe, sampleWeeks, List.getLast?])

/-- C7: the forecaster picks linear regression exactly when the configured
method is `linreg`, or the configured method is `ewma` and the horizon
exceeds 3; with method `ewma` and horizon at most 3 the EWMA method is
kept. -/
theorem forecast_method_selection (cfg : ForecastConfig) (horizon : ℕ)
    (hm : cfg.method = "ewma" ∨ cfg.method = "linreg") :
    (select_method cfg.method horizon = "linreg" ↔
      (cfg.method = "linreg" ∨ (cfg.method = "ewma" ∧ 3 < horizon))) ∧
    (cfg.method = "ewma" → horizon ≤ 3 →
      select_method cfg.method horizon = "ewma") := by
  rcases hm with hm | hm <;> rw [hm] <;> unfold select_method <;>
    by_cases hh : 3 < horizon <;> simp [hh]

/-- Witness for C7 at configured method `ewma` with horizons `5` and `2`. -/
theorem forecast_method_selection_witness :
    ((select_method "ewma" 5 = "linreg" ↔
        ("ewma" = "linreg" ∨ ("ewma" = "ewma" ∧ 3 < 5))) ∧
      ("ewma" = "ewma" → 5 ≤ 3 → select_method "ewma" 5 = "ewma")) ∧
    ("ewma" = "ewma" → 2 ≤ 3 → select_method "ewma" 2 = "ewma") :=
  ⟨forecast_method_selection { method := "ewma", ewma_alpha := 1/2 } 5
      (Or.inl rfl),
    (forecast_method_selection { method := "ewma", ewma_alpha := 1/2 } 2
      (Or.inl rfl)).2⟩

/-- C3: in every classified week, the status is `red` exactly when
`severe_spike` is among the problem flags or both `inflow>outflow` and
`backlog_high` are; otherwise the status is `yellow` whenever any flag is
raised; with no flag raised it is `green` when the week's inflow is at most
`healthy_max_per_deployment` and `yellow` otherwise. -/
theorem health_status_priority (th : HealthThresholds)
    (d : List DerivedMeasureRecord) (i : ℕ) (hi : i < d.length) :
    (((indicators th d).getD i ([], "")).2 = "red" ↔
      ("severe_spike" ∈ ((indicators th d).getD i ([], "")).1 ∨
        ("inflow>outflow" ∈ ((indicators th d).getD i ([], "")).1 ∧
          "backlog_high" ∈ ((indicators th d).getD i ([], "")).1))) ∧
    (¬ ("severe_spike" ∈ ((indicators th d).getD i ([], "")).1 ∨
        ("inflow>outflow" ∈ ((indicators th d).getD i ([], "")).1 ∧
          "backlog_high" ∈ ((indicators th d).getD i ([], "")).1)) →
      ((indicators th d).getD i ([], "")).1 ≠ [] →
      ((indicators th d).getD i ([], "")).2 = "yellow") ∧
    (((indicators th d).getD i ([], "")).1 = [] →
      ((indicators th d).getD i ([], "")).2 =
        (if (d.getD i default).defects_inflow_total ≤
            th.healthy_max_per_deployment then "green" else "yellow")) := by
  have hp : (indicators th d).getD i ([], "") =
      (weekFlags th d i, weekStatus th d i) := by
    unfold indicators
    rw [List.getD_eq_getElem _ _ (by simpa using hi), List.getElem_map,
      List.getElem_range]
  rw [hp]
  simp only [weekStatus]
  by_cases hred : "severe_spike" ∈ weekFlags th d i ∨
      ("inflow>outflow" ∈ weekFlags th d i ∧ "backlog_high" ∈ weekFlags th d i)
  · rw [if_pos hred]
    refine ⟨iff_of_true rfl hred, fun hn _ => absurd hred hn, fun hfl => ?_⟩
    exfalso
    rw [hfl] at hred
    simp at hred
  · rw [if_neg hred]
    by_cases hfl : weekFlags th d i ≠ []
    · rw [if_pos hfl]
      exact ⟨iff_of_false (by decide) hred, fun _ _ => rfl,
        fun h => absurd h hfl⟩
    · rw [if_neg hfl]
      refine ⟨iff_of_false ?_ hred, fun _ hne => absurd (not_not.mp hfl) hne,
        fun _ => rfl⟩
      split <;> decide

/-- Witness for C3 at the spec's worked example, week index `3` (both the
consecutive-inflow and high-backlog flags fire, so the status is red). -/
theorem health_status_priority_witness :
    (((indicators sampleThresholds sampleDerived).getD 3 ([], "")).2 = "red" ↔
      ("severe_spike" ∈
          ((indicators sampleThresholds sampleDerived).getD 3 ([], "")).1 ∨
        ("inflow>outflow" ∈
            ((indicators sampleThresholds sampleDerived).getD 3 ([], "")).1 ∧
          "backlog_high" ∈
            ((indicators sampleThresholds sampleDerived).getD 3 ([], "")).1))) ∧
    (¬ ("severe_spike" ∈
          ((indicators sampleThresholds sampleDerived).getD 3 ([], "")).1 ∨
        ("inflow>outflow" ∈
            ((indicators sampleThresholds sampleDerived).getD 3 ([], "")).1 ∧
          "backlog_high" ∈
            ((indicators sampleThresholds sampleDerived).getD 3 ([], "")).1)) →
      ((indicators sampleThresholds sampleDerived).getD 3 ([], "")).1 ≠ [] →
      ((indicators sampleThresholds sampleDerived).getD 3 ([], "")).2 =
        "yellow") ∧
    (((indicators sampleThresholds sampleDerived).getD 3 ([], "")).1 = [] →
      ((indicators sampleThresholds sampleDerived).getD 3 ([], "")).2 =
        (if (sampleDerived.getD 3 default).defects_inflow_total ≤
            sampleThresholds.healthy_max_per_deployment then "green"
          else "yellow")) :=
  health_status_priority sampleThresholds sampleDerived 3 (by decide)

/-- Counterexample to C5 as stated: with `ewma_alpha = 2`, far outside
`(0,1)`, the forecaster succeeds on the sample series instead of failing
with `ConfigError` — `cli.py` performs no configuration validation at
all. -/
theorem forecast_no_configerror_counterexample :
    ¬ (0 < (2 : ℚ) ∧ (2 : ℚ) < 1) ∧
    forecast_next sampleWeeks { method := "ewma", ewma_alpha := 2 } 1 ≠
      none := by
  constructor
  · rintro ⟨-, h2⟩
    norm_num at h2
  · intro hnone
    have hsome := forecast_next_ewma_some sampleWeeks 2 1 (by decide)
      (by norm_num)
    rw [hnone] at hsome
    simp at hsome

/-- C5 amended: the forecaster performs no validation at all.  With method
`ewma` and horizon at most 3 it succeeds on every non-empty series for
every `alpha` (no `ConfigError` for `alpha` outside `(0,1)` or a zero
horizon), while on the empty series it fails with an uncaught `IndexError`
(modelled `none`), not an `InsufficientDataError`. -/
theorem forecast_no_validation (df : List WeeklyMeasureRecord) (alpha : ℚ)
    (h : ℕ) (hdf : df ≠ []) (hh : h ≤ 3) :
    (forecast_next df { method := "ewma", ewma_alpha := alpha } h).isSome =
      true ∧
    forecast_next [] { method := "ewma", ewma_alpha := alpha } h = none := by
  refine ⟨forecast_next_ewma_some df alpha h hdf hh, ?_⟩
  by_cases hsel : select_method "ewma" h = "ewma" <;>
    simp [forecast_next, hsel, ewma, linreg_forecast]

/-- Witness for C5 amended at the sample series, `alpha = 7` and horizon
`0` (both outside their specified ranges). -/
theorem forecast_no_validation_witness :
    (forecast_next sampleWeeks { method := "ewma", ewma_alpha := 7 }
        0).isSome = true ∧
    forecast_next [] { method := "ewma", ewma_alpha := 7 } 0 = none :=
  forecast_no_validation sampleWeeks 7 0 (by decide) (by norm_num)

/-- Counterexample to C8 as stated: the returned `estimated_total_hours` is
the rounded sum, not the sum itself — with `hours_per_defect.critical =
1/100` and a forecast of one critical defect the sum is `1/100` but the
output field is `0`. -/
theorem resource_plan_hours_counterexample :
    (resource_plan 0 (SeverityMap.mk 1 0 0 0) (SeverityMap.mk (1/100) 0 0 0)
        40 0).estimated_total_hours ≠
      totalHours (SeverityMap.mk (1/100) 0 0 0) (SeverityMap.mk 1 0 0 0) := by
  norm_num [resource_plan, totalHours, pyRound1, rhe]

/-- C8 amended: `estimated_total_hours` is the severity-weighted sum of
hours rounded to one decimal; `recommended_engineers` is the ceiling of the
unrounded sum divided by the capacity when the capacity is positive, and
`0` when the capacity is non-positive, with no error in either case. -/
theorem resource_plan_formulas (ni : ℚ) (sev hp : SeverityMap)
    (cap qa : ℚ) :
    (resource_plan ni sev hp cap qa).estimated_total_hours =
      pyRound1 (totalHours hp sev) ∧
    (0 < cap → (resource_plan ni sev hp cap qa).recommended_engineers =
      ⌈totalHours hp sev / cap⌉) ∧
    (cap ≤ 0 → (resource_plan ni sev hp cap qa).recommended_engineers = 0) := by
  refine ⟨rfl, fun h => ?_, fun h => ?_⟩
  · show (if cap > 0 then ⌈totalHours hp sev / cap⌉ else 0) = _
    rw [if_pos h]
  · show (if cap > 0 then ⌈totalHours hp sev / cap⌉ else 0) = 0
    rw [if_neg (not_lt.mpr h)]

/-- Witness for C8 at one critical defect, ten hours per critical defect,
capacity `4` (and the degenerate capacity `-1`). -/
theorem resource_plan_formulas_witness :
    (resource_plan 0 (SeverityMap.mk 1 0 0 0) (SeverityMap.mk 10 0 0 0)
        4 0).estimated_total_hours =
      pyRound1 (totalHours (SeverityMap.mk 10 0 0 0) (SeverityMap.mk 1 0 0 0)) ∧
    (resource_plan 0 (SeverityMap.mk 1 0 0 0) (SeverityMap.mk 10 0 0 0)
        4 0).recommended_engineers =
      ⌈totalHours (SeverityMap.mk 10 0 0 0) (SeverityMap.mk 1 0 0 0) / 4⌉ ∧
    (resource_plan 0 (SeverityMap.mk 1 0 0 0) (SeverityMap.mk 10 0 0 0)
        (-1) 0).recommended_engineers = 0 :=
  ⟨(resource_plan_formulas 0 (SeverityMap.mk 1 0 0 0)
      (SeverityMap.mk 10 0 0 0) 4 0).1,
    (resource_plan_formulas 0 (SeverityMap.mk 1 0 0 0)
      (SeverityMap.mk 10 0 0 0) 4 0).2.1 (by norm_num),
    (resource_plan_formulas 0 (SeverityMap.mk 1 0 0 0)
      (SeverityMap.mk 10 0 0 0) (-1) 0).2.2 (by norm_num)⟩

/-- C9: with non-negative `hours_per_defect` values, increasing severity
forecast counts (componentwise, which covers increasing any single one
while holding the others fixed) never decreases the total estimated hours,
the rounded `estimated_total_hours` output, or `recommended_engineers`. -/
theorem resource_plan_monotone (ni : ℚ) (sev sev2 hp : SeverityMap)
    (cap qa : ℚ)
    (hc : 0 ≤ hp.critical) (hhi : 0 ≤ hp.high) (hme : 0 ≤ hp.medium)
    (hlo : 0 ≤ hp.low)
    (sc : sev.critical ≤ sev2.critical) (sh : sev.high ≤ sev2.high)
    (sm : sev.medium ≤ sev2.medium) (sl : sev.low ≤ sev2.low) :
    totalHours hp sev ≤ totalHours hp sev2 ∧
    (resource_plan ni sev hp cap qa).estimated_total_hours ≤
      (resource_plan ni sev2 hp cap qa).estimated_total_hours ∧
    (resource_plan ni sev hp cap qa).recommended_engineers ≤
      (resource_plan ni sev2 hp cap qa).recommended_engineers := by
  have ht : totalHours hp sev ≤ totalHours hp sev2 := by
    unfold totalHours
    have h1 := mul_le_mul_of_nonneg_left sc hc
    have h2 := mul_le_mul_of_nonneg_left sh hhi
    have h3 := mul_le_mul_of_nonneg_left sm hme
    have h4 := mul_le_mul_of_nonneg_left sl hlo
    linarith
  refine ⟨ht, pyRound1_mono ht, ?_⟩
  show (if cap > 0 then ⌈totalHours hp sev / cap⌉ else 0) ≤
    (if cap > 0 then ⌈totalHours hp sev2 / cap⌉ else 0)
  by_cases hcap : cap > 0
  · rw [if_pos hcap, if_pos hcap]
    exact Int.ceil_le_ceil (by gcongr)
  · rw [if_neg hcap, if_neg hcap]

/-- Witness for C9: raising the critical forecast from `1` to `2` with
positive hour weights and capacity `40`. -/
theorem resource_plan_monotone_witness :
    totalHours (SeverityMap.mk 8 4 2 1) (SeverityMap.mk 1 1 1 1) ≤
      totalHours (SeverityMap.mk 8 4 2 1) (SeverityMap.mk 2 1 1 1) ∧
    (resource_plan 0 (SeverityMap.mk 1 1 1 1) (SeverityMap.mk 8 4 2 1)
        40 0).estimated_total_hours ≤
      (resource_plan 0 (SeverityMap.mk 2 1 1 1) (SeverityMap.mk 8 4 2 1)
        40 0).estimated_total_hours ∧
    (resource_plan 0 (SeverityMap.mk 1 1 1 1) (SeverityMap.mk 8 4 2 1)
        40 0).recommended_engineers ≤
      (resource_plan 0 (SeverityMap.mk 2 1 1 1) (SeverityMap.mk 8 4 2 1)
        40 0).recommended_engineers :=
  resource_plan_monotone 0 (SeverityMap.mk 1 1 1 1) (SeverityMap.mk 2 1 1 1)
    (SeverityMap.mk 8 4 2 1) 40 0 (by norm_num) (by norm_num) (by norm_num)
    (by norm_num) (by norm_num) (by norm_num) (by norm_num) (by norm_num)
